import Mathlib

/-!
Verification of the CMUStudyBuddy course scraper (`backend/course_scraper.py`)
against its natural-language specification.

Strings are modelled as `List Char` (`Str`).  External library functions that
the scraper calls (`urljoin`, `urlparse`-path extraction, the HTTP layer, the
wall clock) are passed in as explicit parameters, so every theorem quantifies
over their behaviour.  All side effects (the visited-URL set, the log of
network requests issued, the content store of downloaded filenames) are
threaded through an explicit `ScrapeState`.
-/

set_option maxRecDepth 8000

abbrev Str := List Char

/-- Convert a Lean string literal to the `List Char` representation. -/
def str (s : String) : Str := s.data

/-- Boolean test: is `pat` a prefix of `s`? (mirrors Python `str.startswith`
and the first step of substring containment). -/
def isPref (pat s : Str) : Bool :=
  match pat, s with
  | [], _ => true
  | _ :: _, [] => false
  | p :: ps, c :: cs => decide (p = c) && isPref ps cs

/-- Boolean test: does `pat` occur as a contiguous substring of `s`?
(mirrors Python `pat in s`). -/
def substrOf (pat : Str) : Str → Bool
  | [] => isPref pat []
  | c :: cs => isPref pat (c :: cs) || substrOf pat cs

/-- Boolean test: does `s` end with `suf`? (mirrors Python `str.endswith`). -/
def endsWithB (suf s : Str) : Bool := isPref suf.reverse s.reverse

/-- ASCII lower-casing of a string, mirroring Python `str.lower()` on the
ASCII course-page material the scraper handles. -/
def lowerL (s : Str) : Str := s.map Char.toLower

/-- `HOMEWORK_KEYWORDS` from `course_scraper.py`. -/
def HOMEWORK_KEYWORDS : List Str :=
  [str "homework", str "hw", str "assignment", str "assign", str "problem set",
   str "pset", str "lab", str "project", str "exercise", str "exercises"]

/-- `RECITATION_KEYWORDS` from `course_scraper.py`. -/
def RECITATION_KEYWORDS : List Str :=
  [str "recitation", str "rec", str "tutorial", str "section", str "review"]

/-- `TEXTBOOK_KEYWORDS` from `course_scraper.py`. -/
def TEXTBOOK_KEYWORDS : List Str :=
  [str "textbook", str "book", str "required reading", str "reading",
   str "reference", str "course book", str "required text"]

/-- `LECTURE_KEYWORDS` from `course_scraper.py`. -/
def LECTURE_KEYWORDS : List Str :=
  [str "lecture", str "lectures", str "notes", str "slides",
   str "presentation", str "class notes"]

/-- `'.pdf'`, the single element of `PDF_EXTENSIONS`. -/
def pdfExt : Str := str ".pdf"

/-- Does some keyword of `kws` occur in `s`?  Mirrors
`any(kw in s for kw in kws)`. -/
def anyKwIn (kws : List Str) (s : Str) : Bool := kws.any fun kw => substrOf kw s

/-- Does some keyword of `kws` occur in `t` or in `h`?  Mirrors
`any(kw in t or kw in h for kw in kws)`. -/
def anyKwIn2 (kws : List Str) (t h : Str) : Bool :=
  kws.any fun kw => substrOf kw t || substrOf kw h

/-- `CourseScraper.classify_link` (lines 189-224 of `course_scraper.py`),
translated rule for rule: PDF check first (textbook > homework > recitation >
lecture on the link text, else `pdf`), then homework, recitation, textbook,
lecture on text-or-href, else `other`. -/
def classify_link (text href url : Str) : Str :=
  let text_lower := lowerL text
  let href_lower := lowerL href
  let url_lower := lowerL url
  if substrOf pdfExt url_lower then
    if anyKwIn TEXTBOOK_KEYWORDS text_lower then str "textbook_pdf"
    else if anyKwIn HOMEWORK_KEYWORDS text_lower then str "homework_pdf"
    else if anyKwIn RECITATION_KEYWORDS text_lower then str "recitation_pdf"
    else if anyKwIn LECTURE_KEYWORDS text_lower then str "lecture_pdf"
    else str "pdf"
  else if anyKwIn2 HOMEWORK_KEYWORDS text_lower href_lower then str "homework"
  else if anyKwIn2 RECITATION_KEYWORDS text_lower href_lower then str "recitation"
  else if anyKwIn2 TEXTBOOK_KEYWORDS text_lower href_lower then str "textbook"
  else if anyKwIn2 LECTURE_KEYWORDS text_lower href_lower then str "lecture"
  else str "other"

/-! ## Data model -/

/-- A raw hyperlink as it appears on a fetched page: `href` attribute and the
stripped visible text (the output of BeautifulSoup's `get_text(strip=True)`). -/
structure RawLink where
  href : Str
  text : Str
deriving DecidableEq

/-- A classified link record, mirroring the dict built by `find_all_links`
(`url`, `text`, `type`, `href`) plus the `local_filename` key that
`scrape_course` attaches after a successful download. -/
structure Link where
  url : Str
  text : Str
  type : Str
  href : Str
  local_filename : Option Str
deriving DecidableEq

/-- The per-course `results` dict built by `scrape_course`. -/
structure CrawlResult where
  code : Str
  url : Str
  textbooks : List Link
  recitations : List Link
  homeworks : List Link
  lectures : List Link
  other_links : List Link
  errors : List Str
deriving DecidableEq

/-- A course entry as produced by `load_course_files`
(`{'code', 'file', 'url', 'content'}`). -/
structure CourseEntry where
  code : Str
  file : Str
  url : Str
  content : Str
deriving DecidableEq

/-- An on-disk course record: file name plus its text content. -/
structure CourseFile where
  name : Str
  content : Str
deriving DecidableEq

/-- The mutable state of one `CourseScraper` run: the VisitedSet
(`self.scraped_urls`, kept in insertion order), the log of network GET
requests actually issued (a modelling device used to state "no network
call" properties), and the set of filenames present in the content store
(`self.books_dir`). -/
structure ScrapeState where
  scraped_urls : List Str
  requested : List Str
  store : List Str
deriving DecidableEq

/-! ## HTTP fetcher (`fetch_page`, lines 134-160) -/

/-- `CourseScraper.fetch_page`.  `net url` is the combined behaviour of
`session.get` + HTML parsing: `some page` when the request and the parse
succeed, `none` when either raises.  A URL already in the VisitedSet is
skipped with no network request; the URL is added to the VisitedSet on
successful fetch-and-parse only, while the request log records every GET
actually issued. -/
def fetch_page (net : Str → Option (List RawLink)) (st : ScrapeState) (url : Str) :
    Option (List RawLink) × ScrapeState :=
  if url ∈ st.scraped_urls then (none, st)
  else
    match net url with
    | none => (none, { st with requested := st.requested ++ [url] })
    | some page =>
        (some page,
         { st with requested := st.requested ++ [url],
                   scraped_urls := st.scraped_urls ++ [url] })

/-- Run a sequence of `fetch_page` calls in order, returning the final state
and the list of URLs that were fetched successfully, in order. -/
def runFetch (net : Str → Option (List RawLink)) : ScrapeState → List Str → ScrapeState × List Str
  | st, [] => (st, [])
  | st, u :: us =>
    match fetch_page net st u with
    | (some _, st') =>
        let r := runFetch net st' us
        (r.1, u :: r.2)
    | (none, st') => runFetch net st' us

/-! ## Link extraction (`find_all_links`, lines 162-187) -/

/-- `CourseScraper.find_all_links`.  `join` is `urllib.parse.urljoin`,
passed in as a parameter.  Each tag yields a dict with the resolved URL, the
stripped text, the classification (computed on the lower-cased text, as in
line 175), and the raw href. -/
def find_all_links (join : Str → Str → Str) (page : List RawLink) (base_url : Str) :
    List Link :=
  page.map fun tag =>
    let full_url := join base_url tag.href
    { url := full_url
      text := tag.text
      type := classify_link (lowerL tag.text) tag.href full_url
      href := tag.href
      local_filename := none }

/-! ## Alternative URLs (`try_alternative_urls`, lines 275-295) -/

/-- Is `c` an ASCII digit (`\d` on this input class)? -/
def isDig (c : Char) : Bool := decide ('0' ≤ c ∧ c ≤ '9')

/-- Match of the regex `(\d{2})-(\d{3})` anchored at the current position:
two digits, a dash and three digits, returning the two capture groups. -/
def matchDDDDDAt : Str → Option (Str × Str)
  | a :: b :: '-' :: c :: d :: e :: _ =>
      if isDig a && isDig b && isDig c && isDig d && isDig e then
        some ([a, b], [c, d, e])
      else none
  | _ => none

/-- Leftmost match of the regex `(\d{2})-(\d{3})`: scan positions left to
right, trying the anchored match at each. -/
def findDDDDD : Str → Option (Str × Str)
  | [] => none
  | c :: cs =>
      match matchDDDDDAt (c :: cs) with
      | some r => some r
      | none => findDDDDD cs

/-- The fixed institutional root used for derived alternates. -/
def cmuRoot : Str := str "https://www.cs.cmu.edu/~"

/-- `CourseScraper.try_alternative_urls`: the recorded URL first, then (when
the course code contains a `DD-DDD` group) `~DDD/`, `~DDDDD/`, and — when the
second group has exactly three digits — the zero-padded `~0DDD/` variant. -/
def try_alternative_urls (course_code original_url : Str) : List Str :=
  match findDDDDD course_code with
  | none => [original_url]
  | some (dept_num, course_num) =>
      [original_url,
       cmuRoot ++ course_num ++ str "/",
       cmuRoot ++ dept_num ++ course_num ++ str "/"]
      ++ (if course_num.length = 3 then [cmuRoot ++ str "0" ++ course_num ++ str "/"] else [])

/-! ## Artifact downloader (`download_file`, lines 226-273) -/

/-- `os.path.basename`: the segment of a POSIX path after its last `/`. -/
def basenameOf (path : Str) : Str := (path.reverse.takeWhile fun c => decide (c ≠ '/')).reverse

/-- One character of the sanitisation `re.sub(r'[^\w\-_\.]', '_', filename)`:
word characters (alphanumerics and `_`), `-` and `.` are kept, everything
else becomes `_`. -/
def sanitizeC (c : Char) : Char :=
  if c.isAlphanum || c = '_' || c = '-' || c = '.' then c else '_'

/-- Decimal digits of `n`, mirroring Python `str(int)` / f-string formatting
of a non-negative integer. -/
def natChars (n : Nat) : Str := Nat.toDigits 10 n

/-- The sanitised target filename `download_file` derives before touching the
store: basename of the URL path (`pathOf` is `urlparse(url).path`, passed in
as a parameter), the `{code}_{type}_{timestamp}.pdf` fallback when that
basename is empty or extensionless, character sanitisation, and the forced
`.pdf` suffix for `*_pdf` link types. -/
def derivedFilename (pathOf : Str → Str) (now : Nat) (url course_code link_type : Str) : Str :=
  let f0 := basenameOf (pathOf url)
  let f1 :=
    if f0.isEmpty || !(f0.any fun c => decide (c = '.')) then
      course_code ++ str "_" ++ link_type ++ str "_" ++ natChars now ++ str ".pdf"
    else f0
  let f2 := f1.map sanitizeC
  if endsWithB (str "_pdf") link_type && !endsWithB (str ".pdf") f2 then f2 ++ str ".pdf"
  else f2

/-- `CourseScraper.download_file`.  `dlnet url` models `session.get` on the
file URL: `some contentType` on a successful response, `none` when any
exception is raised.  If the derived filename already exists in the content
store the function short-circuits with that filename and no network request;
otherwise the body is stored only when the content type contains `pdf` or
the URL ends in `.pdf`. -/
def download_file (pathOf : Str → Str) (dlnet : Str → Option Str) (now : Nat)
    (st : ScrapeState) (url course_code link_type : Str) : Option Str × ScrapeState :=
  let filename := derivedFilename pathOf now url course_code link_type
  if filename ∈ st.store then (some filename, st)
  else
    match dlnet url with
    | none => (none, { st with requested := st.requested ++ [url] })
    | some content_type =>
        if substrOf (str "pdf") (lowerL content_type) || endsWithB (str ".pdf") url then
          (some filename,
           { st with requested := st.requested ++ [url], store := st.store ++ [filename] })
        else (none, { st with requested := st.requested ++ [url] })

/-! ## Orchestrator (`scrape_course`, lines 297-410) -/

/-- The download guard of the top-level link loop (line 341):
`link_type.endswith('_pdf') or ('.pdf' in link_url.lower() and link_type == 'other')`. -/
def shouldDownload (link : Link) : Bool :=
  endsWithB (str "_pdf") link.type ||
    (substrOf pdfExt (lowerL link.url) && decide (link.type = str "other"))

/-- The bucket routing of lines 350-373, applied to the (possibly mutated)
link dict `link` using the local `link_type` variable `lt`. -/
def routeLink (r : CrawlResult) (link : Link) (lt : Str) : CrawlResult :=
  if lt = str "textbook" ∨ lt = str "textbook_pdf" ∨
      (endsWithB (str "_pdf") lt ∧ substrOf (str "book") (lowerL link.text) = true) then
    { r with textbooks := r.textbooks ++ [link] }
  else if lt = str "recitation" ∨ lt = str "recitation_pdf" then
    { r with recitations := r.recitations ++ [link] }
  else if lt = str "homework" ∨ lt = str "homework_pdf" then
    { r with homeworks := r.homeworks ++ [link] }
  else if lt = str "lecture" ∨ lt = str "lecture_pdf" then
    { r with lectures := r.lectures ++ [link] }
  else if endsWithB (str "_pdf") lt ∨ substrOf pdfExt (lowerL link.url) = true then
    let link_lower := lowerL (link.text ++ str " " ++ link.url)
    if anyKwIn HOMEWORK_KEYWORDS link_lower then { r with homeworks := r.homeworks ++ [link] }
    else if anyKwIn RECITATION_KEYWORDS link_lower then { r with recitations := r.recitations ++ [link] }
    else if anyKwIn TEXTBOOK_KEYWORDS link_lower then { r with textbooks := r.textbooks ++ [link] }
    else if anyKwIn LECTURE_KEYWORDS link_lower then { r with lectures := r.lectures ++ [link] }
    else { r with other_links := r.other_links ++ [link] }
  else { r with other_links := r.other_links ++ [link] }

/-- Lines 336-373 for a single top-level link: possibly reclassify and
download, mutate the link dict on success, then route it into a bucket.
Returns the updated result, state, and the stored (possibly mutated) link. -/
def processTopLink (pathOf : Str → Str) (dlnet : Str → Option Str) (now : Nat)
    (course_code : Str) (st : ScrapeState) (r : CrawlResult) (link : Link) :
    CrawlResult × ScrapeState × Link :=
  if shouldDownload link then
    let lt := if substrOf pdfExt (lowerL link.url) && decide (link.type = str "other")
              then str "pdf" else link.type
    match download_file pathOf dlnet now st link.url course_code lt with
    | (some filename, st') =>
        let link' := { link with local_filename := some filename, type := lt ++ str "_pdf" }
        (routeLink r link' lt, st', link')
    | (none, st') => (routeLink r link lt, st', link)
  else (routeLink r link link.type, st, link)

/-- Fold of `processTopLink` over the landing page's links, collecting the
stored link dicts (the same objects the fan-out pass will iterate). -/
def processTopLinks (pathOf : Str → Str) (dlnet : Str → Option Str) (now : Nat)
    (course_code : Str) :
    List Link → CrawlResult × ScrapeState × List Link → CrawlResult × ScrapeState × List Link
  | [], acc => acc
  | l :: ls, (r, st, done) =>
      let s := processTopLink pathOf dlnet now course_code st r l
      processTopLinks pathOf dlnet now course_code ls (s.1, s.2.1, done ++ [s.2.2])

/-- The fixed list of sub-page name hints (lines 377-378). -/
def common_pages : List Str :=
  [str "syllabus", str "schedule", str "assignments", str "homework", str "hw",
   str "recitations", str "lectures", str "notes", str "textbook", str "books"]

/-- Lines 395-404: merge one sub-page link into the result buckets.  Only the
textbook, recitation and homework categories are merged (each deduplicated by
dict value); every other category — in particular `lecture`/`lecture_pdf` —
is dropped. -/
def mergeSubLink (r : CrawlResult) (sl : Link) : CrawlResult :=
  if sl.type = str "textbook" ∨ sl.type = str "textbook_pdf" then
    if sl ∈ r.textbooks then r else { r with textbooks := r.textbooks ++ [sl] }
  else if sl.type = str "recitation" ∨ sl.type = str "recitation_pdf" then
    if sl ∈ r.recitations then r else { r with recitations := r.recitations ++ [sl] }
  else if sl.type = str "homework" ∨ sl.type = str "homework_pdf" then
    if sl ∈ r.homeworks then r else { r with homeworks := r.homeworks ++ [sl] }
  else r

/-- Lines 388-404 for one sub-page link: download `*_pdf` links (attaching
`local_filename` on success, without changing the stored type), then merge. -/
def processSubLink (pathOf : Str → Str) (dlnet : Str → Option Str) (now : Nat)
    (course_code : Str) (acc : CrawlResult × ScrapeState) (sl : Link) :
    CrawlResult × ScrapeState :=
  if endsWithB (str "_pdf") sl.type then
    match download_file pathOf dlnet now acc.2 sl.url course_code sl.type with
    | (some filename, st') => (mergeSubLink acc.1 { sl with local_filename := some filename }, st')
    | (none, st') => (mergeSubLink acc.1 sl, st')
  else (mergeSubLink acc.1 sl, acc.2)

/-- Lines 381-404 for one landing-page link under one page-name hint: when the
hint occurs in the link's href or text, fetch the sub-page, classify its links
and fold `processSubLink` over them. -/
def processSubPageLink (join : Str → Str → Str) (pathOf : Str → Str)
    (net : Str → Option (List RawLink)) (dlnet : Str → Option Str) (now : Nat)
    (course_code page_name : Str) (acc : CrawlResult × ScrapeState) (link : Link) :
    CrawlResult × ScrapeState :=
  if substrOf page_name (lowerL link.href) || substrOf page_name (lowerL link.text) then
    match fetch_page net acc.2 link.url with
    | (some sub_page, st') =>
        (find_all_links join sub_page link.url).foldl
          (processSubLink pathOf dlnet now course_code) (acc.1, st')
    | (none, st') => (acc.1, st')
  else acc

/-- The whole sub-page fan-out pass (lines 380-404): for every page-name hint,
for every landing-page link matching it, fetch and merge. -/
def subPageFanout (join : Str → Str → Str) (pathOf : Str → Str)
    (net : Str → Option (List RawLink)) (dlnet : Str → Option Str) (now : Nat)
    (course_code : Str) (st : ScrapeState) (links : List Link) (r : CrawlResult) :
    CrawlResult × ScrapeState :=
  common_pages.foldl
    (fun acc page_name =>
      links.foldl (processSubPageLink join pathOf net dlnet now course_code page_name) acc)
    (r, st)

/-- Python `sep.join(parts)`. -/
def joinSep (sep : Str) : List Str → Str
  | [] => []
  | [x] => x
  | x :: y :: ys => x ++ sep ++ joinSep sep (y :: ys)

/-- The candidate loop of lines 320-326: try each URL through `fetch_page`
until one parses, returning the working URL and its page. -/
def fetchFirst (net : Str → Option (List RawLink)) (st : ScrapeState) :
    List Str → Option (Str × List RawLink) × ScrapeState
  | [] => (none, st)
  | u :: us =>
    match fetch_page net st u with
    | (some page, st') => (some (u, page), st')
    | (none, st') => fetchFirst net st' us

/-- `CourseScraper.scrape_course` (lines 297-410): build the candidate URL
list, stop at the first fetchable candidate; on total failure record the
single error line listing every attempted URL; on success classify the
landing page's links, run the top-level download/route loop, then the
sub-page fan-out. -/
def scrape_course (join : Str → Str → Str) (pathOf : Str → Str)
    (net : Str → Option (List RawLink)) (dlnet : Str → Option Str) (now : Nat)
    (st : ScrapeState) (course : CourseEntry) : CrawlResult × ScrapeState :=
  let base : CrawlResult :=
    { code := course.code, url := course.url, textbooks := [], recitations := [],
      homeworks := [], lectures := [], other_links := [], errors := [] }
  let urls_to_try := try_alternative_urls course.code course.url
  match fetchFirst net st urls_to_try with
  | (none, st1) =>
      ({ base with errors :=
          [str "Failed to fetch main page. Tried: " ++ joinSep (str ", ") urls_to_try] }, st1)
  | (some (working_url, page), st1) =>
      let links := find_all_links join page working_url
      let top := processTopLinks pathOf dlnet now course.code links
        ({ base with url := working_url }, st1, [])
      subPageFanout join pathOf net dlnet now course.code top.2.1 top.2.2 top.1

/-! ## Course record loading (`load_course_files`, lines 97-132) -/

/-- Python regex `\s` on ASCII input: space, tab, newline, carriage return,
vertical tab, form feed. -/
def isWsp (c : Char) : Bool :=
  decide (c = ' ' ∨ c = '\t' ∨ c = '\n' ∨ c = '\r' ∨ c = '\x0b' ∨ c = '\x0c')

/-- After the literal `Course Code:`, match `\s*(\d{2}-\d{3})` at the current
position: greedily skip whitespace, then require exactly two digits, a dash
and three digits, returning the captured group. -/
def codeGroupAt (s : Str) : Option Str :=
  match s.dropWhile isWsp with
  | a :: b :: '-' :: c :: d :: e :: _ =>
      if isDig a && isDig b && isDig c && isDig d && isDig e then
        some [a, b, '-', c, d, e]
      else none
  | _ => none

/-- Leftmost match of `re.search(r'Course Code:\s*(\d{2}-\d{3})', content)`,
returning the captured course code. -/
def findCourseCode : Str → Option Str
  | [] => none
  | c :: cs =>
      if isPref (str "Course Code:") (c :: cs) then
        match codeGroupAt ((c :: cs).drop 12) with
        | some code => some code
        | none => findCourseCode cs
      else findCourseCode cs

/-- After the literal `Course URL:` and `\s*`, match `https?://[^\s]+` at the
current position (the `s?` alternative with `s` is tried first; the character
class needs at least one non-whitespace character after `://`). -/
def urlGroupAt (s : Str) : Option Str :=
  let s' := s.dropWhile isWsp
  if isPref (str "https://") s' then
    match (s'.drop 8).takeWhile (fun c => !isWsp c) with
    | [] => none
    | rest => some (str "https://" ++ rest)
  else if isPref (str "http://") s' then
    match (s'.drop 7).takeWhile (fun c => !isWsp c) with
    | [] => none
    | rest => some (str "http://" ++ rest)
  else none

/-- Leftmost match of `re.search(r'Course URL:\s*(https?://[^\s]+)', content)`,
returning the captured URL. -/
def findCourseUrl : Str → Option Str
  | [] => none
  | c :: cs =>
      if isPref (str "Course URL:") (c :: cs) then
        match urlGroupAt ((c :: cs).drop 11) with
        | some url => some url
        | none => findCourseUrl cs
      else findCourseUrl cs

/-- Lines 105-127 for one course file: the file contributes an entry exactly
when its content has a `Course Code: DD-DDD` match and a
`Course URL: http(s)://…` match; a file whose code or URL is missing is
silently skipped. -/
def loadCourseFile (f : CourseFile) : Option CourseEntry :=
  match findCourseCode f.content with
  | none => none
  | some code =>
      match findCourseUrl f.content with
      | none => none
      | some url => some { code := code, file := f.name, url := url, content := f.content }

/-- `CourseScraper.load_course_files` over the directory's files. -/
def load_course_files (files : List CourseFile) : List CourseEntry :=
  files.filterMap loadCourseFile

/-! ## Course record updater (`update_course_file`, lines 412-494) -/

/-- Is `'\n'` present in `s`? -/
def anyNl (s : Str) : Bool := s.any fun c => decide (c = '\n')

/-- Index of the first `'\n'` in `s` (length of `s` when there is none). -/
def idxOfNl : Str → Nat
  | [] => 0
  | c :: cs => if c = '\n' then 0 else idxOfNl cs + 1

/-- The literal `Course URL:` searched for by the updater's insertion regex. -/
def cuPat : Str := str "Course URL:"

/-- Does `re.search(r'(Course URL:.*?\n)')` match at the start of `s`?  The
literal must be present and, since `.` does not match newlines, the lazy tail
needs a terminating `'\n'` somewhere after it. -/
def cuValidHere (s : Str) : Bool := isPref cuPat s && anyNl (s.drop 11)

/-- Length of the lazy match starting at the current position: the 11 literal
characters, the shortest newline-free tail, and the `'\n'`. -/
def cuMatchLen (s : Str) : Nat := 11 + idxOfNl (s.drop 11) + 1

/-- End position (`match.end()`) of the leftmost match of
`re.search(r'(Course URL:.*?\n)', content)`. -/
def courseUrlMatchEnd : Str → Option Nat
  | [] => none
  | c :: cs =>
      if cuValidHere (c :: cs) then some (cuMatchLen (c :: cs))
      else (courseUrlMatchEnd cs).map (· + 1)

/-- The 80-dash separator line used inside each section. -/
def dash80 : Str := List.replicate 80 '-'

/-- The 80-equals separator line of the metadata footer. -/
def equals80 : Str := List.replicate 80 '='

/-- The lines a single entry contributes to its section (lines 426-431):
optional `Local PDF:` line, the `URL:` line, optional `Title:` line when the
text is truthy (non-empty), then a blank line. -/
def linkLines (item : Link) : List Str :=
  (match item.local_filename with
   | some fn => [str "Local PDF: " ++ fn]
   | none => []) ++
  [str "URL: " ++ item.url] ++
  (if item.text.isEmpty then [] else [str "Title: " ++ item.text]) ++
  [str ""]

/-- One section: header, dashes, then either the entries' lines or the
literal `None found` marker. -/
def sectionLines (header : Str) (items : List Link) : List Str :=
  [header, dash80] ++
  (if items.isEmpty then [str "None found"] else items.foldr (fun it acc => linkLines it ++ acc) [])

/-- The `sections` list built by lines 420-468: books, recitations and
homeworks sections, each followed by one extra blank line. -/
def sectionsLinesOf (r : CrawlResult) : List Str :=
  sectionLines (str "BOOKS AND TEXTBOOKS:") r.textbooks ++ [str ""] ++
  sectionLines (str "RECITATIONS:") r.recitations ++ [str ""] ++
  sectionLines (str "HOMEWORKS AND ASSIGNMENTS:") r.homeworks ++ [str ""]

/-- `"\n".join(sections)`, the block of text inserted by one updater run. -/
def sectionsText (r : CrawlResult) : Str := joinSep (str "\n") (sectionsLinesOf r)

/-- The metadata footer of lines 481-485: separator, `Last Scraped`
timestamp (`ts` stands for `datetime.now().isoformat()`), and the three
count lines. -/
def footerText (r : CrawlResult) (ts : Str) : Str :=
  str "\n" ++ equals80 ++ str "\n" ++
  str "Last Scraped: " ++ ts ++ str "\n" ++
  str "Total Textbooks Found: " ++ natChars r.textbooks.length ++ str "\n" ++
  str "Total Recitations Found: " ++ natChars r.recitations.length ++ str "\n" ++
  str "Total Homeworks Found: " ++ natChars r.homeworks.length ++ str "\n"

/-- The pure text transform of `CourseScraper.update_course_file`
(lines 412-489).  When the `Course URL:` pattern matches, line 475 computes
`new_content = content[:insert_pos] + "\n" + "\n".join(sections) + "\n"` —
everything after the matched line is *discarded* (truncate-and-replace, not
insertion); otherwise the block is appended to the whole text.  The metadata
footer is then appended at the very end. -/
def update_course_file (content : Str) (r : CrawlResult) (ts : Str) : Str :=
  let sections := sectionsText r
  let body :=
    match courseUrlMatchEnd content with
    | some p => content.take p ++ str "\n" ++ sections ++ str "\n"
    | none => content ++ str "\n" ++ sections ++ str "\n"
  body ++ footerText r ts

/-- The enumerated category set of the spec's ClassifiedLink data model. -/
def categoryEnum : List Str :=
  [str "textbook", str "textbook_pdf", str "homework", str "homework_pdf",
   str "recitation", str "recitation_pdf", str "lecture", str "lecture_pdf",
   str "pdf", str "other"]

/-! ## String lemma kit -/

/-- Number of (possibly overlapping) occurrences of `pat` in `s`: one count
per start position at which `pat` is a prefix of the remaining suffix. -/
def countOccur (pat : Str) : Str → Nat
  | [] => if isPref pat [] then 1 else 0
  | c :: cs => (if isPref pat (c :: cs) then 1 else 0) + countOccur pat cs

theorem isPref_iff (pat s : Str) : isPref pat s = true ↔ ∃ t, s = pat ++ t := by
  induction pat generalizing s with
  | nil => simp [isPref]
  | cons a as ih =>
    cases s with
    | nil =>
      simp only [isPref, List.cons_append]
      constructor
      · intro h; cases h
      · rintro ⟨t, h⟩; cases h
    | cons b bs =>
      simp only [isPref, Bool.and_eq_true, decide_eq_true_eq, ih, List.cons_append]
      constructor
      · rintro ⟨rfl, t, rfl⟩; exact ⟨t, rfl⟩
      · rintro ⟨t, h⟩
        injection h with h1 h2
        exact ⟨h1.symm, t, h2⟩

theorem substrOf_iff (pat s : Str) : substrOf pat s = true ↔ ∃ l t, s = l ++ (pat ++ t) := by
  induction s with
  | nil =>
    simp only [substrOf, isPref_iff]
    constructor
    · rintro ⟨t, h⟩; exact ⟨[], t, h⟩
    · rintro ⟨l, t, h⟩
      cases l with
      | nil => exact ⟨t, h⟩
      | cons x xs => cases h
  | cons c cs ih =>
    simp only [substrOf, Bool.or_eq_true, isPref_iff, ih]
    constructor
    · rintro (⟨t, h⟩ | ⟨l, t, h⟩)
      · exact ⟨[], t, h⟩
      · exact ⟨c :: l, t, by simp [h]⟩
    · rintro ⟨l, t, h⟩
      cases l with
      | nil => exact Or.inl ⟨t, h⟩
      | cons x xs =>
        simp only [List.cons_append] at h
        injection h with h1 h2
        exact Or.inr ⟨xs, t, h2⟩

theorem substrOf_of_parts (pat l t : Str) : substrOf pat (l ++ (pat ++ t)) = true :=
  (substrOf_iff pat _).2 ⟨l, t, rfl⟩

theorem isPref_self_append (x y : Str) : isPref x (x ++ y) = true :=
  (isPref_iff x _).2 ⟨y, rfl⟩

theorem isPref_append_of_le (pat y z : Str) (h : pat.length ≤ y.length) :
    isPref pat (y ++ z) = isPref pat y := by
  induction pat generalizing y with
  | nil => simp [isPref]
  | cons a as ih =>
    cases y with
    | nil => simp at h
    | cons b bs =>
      simp only [List.cons_append, isPref, List.append_eq]
      rw [ih bs (by simpa using Nat.le_of_succ_le_succ h)]

theorem isPref_take_of_le (pat z : Str) (m : Nat) (h : pat.length ≤ m) :
    isPref pat (z.take m) = isPref pat z := by
  induction pat generalizing z m with
  | nil => simp [isPref]
  | cons a as ih =>
    cases z with
    | nil => simp
    | cons b bs =>
      cases m with
      | zero => simp at h
      | succ m' =>
        simp only [List.take_succ_cons, isPref]
        rw [ih bs m' (Nat.le_of_succ_le_succ h)]

theorem countOccur_le_append (pat x y : Str) : countOccur pat y ≤ countOccur pat (x ++ y) := by
  induction x with
  | nil => simp
  | cons c cs ih =>
    calc countOccur pat y ≤ countOccur pat (cs ++ y) := ih
      _ ≤ countOccur pat (c :: (cs ++ y)) := by
          simp only [countOccur]; omega
      _ = countOccur pat ((c :: cs) ++ y) := rfl

theorem countOccur_self_append (a : Char) (pat' y : Str) :
    1 + countOccur (a :: pat') y ≤ countOccur (a :: pat') ((a :: pat') ++ y) := by
  have h1 : isPref (a :: pat') ((a :: pat') ++ y) = true := isPref_self_append _ _
  calc 1 + countOccur (a :: pat') y
      ≤ 1 + countOccur (a :: pat') (pat' ++ y) := by
        have := countOccur_le_append (a :: pat') pat' y; omega
    _ = (if isPref (a :: pat') ((a :: pat') ++ y) then 1 else 0) +
          countOccur (a :: pat') (pat' ++ y) := by rw [h1]; simp
    _ = countOccur (a :: pat') ((a :: pat') ++ y) := rfl

/-- A string of the shape `l ++ pat ++ m ++ pat ++ t` contains at least two
occurrences of a non-empty `pat`. -/
theorem two_occurrences (a : Char) (pat' l m t : Str) :
    2 ≤ countOccur (a :: pat') (l ++ ((a :: pat') ++ (m ++ ((a :: pat') ++ t)))) := by
  have h1 : 1 ≤ countOccur (a :: pat') ((a :: pat') ++ t) := by
    have := countOccur_self_append a pat' t; omega
  have h2 : 1 ≤ countOccur (a :: pat') (m ++ ((a :: pat') ++ t)) :=
    le_trans h1 (countOccur_le_append _ m _)
  have h3 : 2 ≤ countOccur (a :: pat') ((a :: pat') ++ (m ++ ((a :: pat') ++ t))) := by
    have := countOccur_self_append a pat' (m ++ ((a :: pat') ++ t)); omega
  exact le_trans h3 (countOccur_le_append _ l _)

theorem anyNl_append (a b : Str) : anyNl (a ++ b) = (anyNl a || anyNl b) := by
  simp [anyNl, List.any_append]

theorem anyNl_decomp (z : Str) (h : anyNl z = true) :
    ∃ a b, z = a ++ '\n' :: b ∧ (∀ c ∈ a, c ≠ '\n') ∧ idxOfNl z = a.length := by
  induction z with
  | nil => simp [anyNl] at h
  | cons c cs ih =>
    by_cases hc : c = '\n'
    · subst hc
      exact ⟨[], cs, rfl, by simp, by simp [idxOfNl]⟩
    · have hcs : anyNl cs = true := by
        simp only [anyNl, List.any_cons, Bool.or_eq_true, decide_eq_true_eq] at h
        rcases h with h | h
        · exact absurd h hc
        · simpa [anyNl] using h
      obtain ⟨a, b, rfl, hno, hidx⟩ := ih hcs
      refine ⟨c :: a, b, rfl, ?_, ?_⟩
      · intro x hx
        rcases List.mem_cons.1 hx with rfl | hx
        · exact hc
        · exact hno x hx
      · simp [idxOfNl, hc, hidx]

theorem idxOfNl_parts (a w : Str) (hno : ∀ c ∈ a, c ≠ '\n') :
    idxOfNl (a ++ '\n' :: w) = a.length := by
  induction a with
  | nil => simp [idxOfNl]
  | cons c cs ih =>
    have hc : c ≠ '\n' := hno c (List.mem_cons_self c cs)
    simp only [List.cons_append, idxOfNl, if_neg hc, List.length_cons, List.append_eq]
    rw [ih fun x hx => hno x (List.mem_cons_of_mem c hx)]

theorem anyNl_parts (a w : Str) : anyNl (a ++ '\n' :: w) = true := by
  rw [anyNl_append]
  simp [anyNl]

theorem joinSep_mem_parts (sep : Str) (us : List Str) (u : Str) (hu : u ∈ us) :
    ∃ l t, joinSep sep us = l ++ (u ++ t) := by
  induction us with
  | nil => cases hu
  | cons x xs ih =>
    rcases List.mem_cons.1 hu with rfl | hu'
    · cases xs with
      | nil => exact ⟨[], [], by simp [joinSep]⟩
      | cons y ys => exact ⟨[], sep ++ joinSep sep (y :: ys), by simp [joinSep]⟩
    · cases xs with
      | nil => cases hu'
      | cons y ys =>
        obtain ⟨l, t, h⟩ := ih hu'
        exact ⟨x ++ sep ++ l, t, by simp [joinSep, h]⟩

/-! ### Characterisation of the updater's insertion-point search -/

theorem matchEnd_of_first_valid (s : Str) (i : Nat)
    (h1 : ∀ j < i, cuValidHere (s.drop j) = false)
    (h2 : cuValidHere (s.drop i) = true) :
    courseUrlMatchEnd s = some (i + cuMatchLen (s.drop i)) := by
  induction i generalizing s with
  | zero =>
    cases s with
    | nil => simp [cuValidHere, isPref] at h2
    | cons c cs =>
      simp only [List.drop_zero] at h2
      simp [courseUrlMatchEnd, h2]
  | succ i' ih =>
    cases s with
    | nil => simp [cuValidHere, isPref] at h2
    | cons c cs =>
      have h0 : cuValidHere (c :: cs) = false := by
        simpa using h1 0 (Nat.succ_pos i')
      have hrec : courseUrlMatchEnd cs = some (i' + cuMatchLen (cs.drop i')) := by
        refine ih cs (fun j hj => ?_) (by simpa using h2)
        simpa using h1 (j + 1) (Nat.succ_lt_succ hj)
      simp only [courseUrlMatchEnd, h0, Bool.false_eq_true, if_false, hrec,
        Option.map_some', List.drop_succ_cons, Option.some_inj]
      omega

theorem matchEnd_inv (s : Str) (e : Nat) (h : courseUrlMatchEnd s = some e) :
    ∃ i, (∀ j < i, cuValidHere (s.drop j) = false) ∧ cuValidHere (s.drop i) = true ∧
      e = i + cuMatchLen (s.drop i) := by
  induction s generalizing e with
  | nil => simp [courseUrlMatchEnd] at h
  | cons c cs ih =>
    by_cases h0 : cuValidHere (c :: cs) = true
    · refine ⟨0, by omega, by simpa using h0, ?_⟩
      simp only [courseUrlMatchEnd, h0, if_true, Option.some_inj] at h
      simpa using h.symm
    · have hstep : courseUrlMatchEnd (c :: cs) = (courseUrlMatchEnd cs).map (· + 1) := by
        simp [courseUrlMatchEnd, h0]
      rw [hstep, Option.map_eq_some'] at h
      obtain ⟨e', he', rfl⟩ := h
      obtain ⟨i, hlt, hvalid, hlen⟩ := ih e' he'
      refine ⟨i + 1, fun j hj => ?_, by simpa using hvalid, ?_⟩
      · cases j with
        | zero => simpa using eq_false_of_ne_true h0
        | succ j' => simpa using hlt j' (by omega)
      · simp only [List.drop_succ_cons]
        omega

/-! ## Claim C1 — PDF links with homework keywords -/

/-- C1 (counterexample): the claim says a link whose URL ends in `.pdf` and
whose text contains a homework keyword is classified `homework_pdf`
"regardless of what other keywords the text contains".  The link text
`homework book` contains the homework keyword `homework`, yet
`classify_link` returns `textbook_pdf`, because the PDF branch consults the
textbook keyword set first (line 197 before line 199). -/
theorem classify_homework_pdf_counterexample :
    classify_link (str "homework book") (str "a.pdf") (str "http://x/a.pdf")
        = str "textbook_pdf" ∧
    classify_link (str "homework book") (str "a.pdf") (str "http://x/a.pdf")
        ≠ str "homework_pdf" := by decide

/-- C1 (amended): for a link whose lower-cased URL ends in `.pdf` and whose
lower-cased text contains a homework keyword, `classify_link` returns either
`homework_pdf` or `textbook_pdf` — it returns `homework_pdf` exactly when the
text contains no textbook keyword (the textbook set is consulted first) — and
it never returns plain `pdf` or plain `homework`. -/
theorem classify_homework_pdf_amended (text href url : Str)
    (hpdf : ∃ pre, lowerL url = pre ++ pdfExt)
    (hhw : ∃ kw ∈ HOMEWORK_KEYWORDS, ∃ l t, lowerL text = l ++ (kw ++ t)) :
    (classify_link text href url = str "homework_pdf" ∨
     classify_link text href url = str "textbook_pdf") ∧
    (classify_link text href url = str "homework_pdf" ↔
        anyKwIn TEXTBOOK_KEYWORDS (lowerL text) = false) ∧
    classify_link text href url ≠ str "pdf" ∧
    classify_link text href url ≠ str "homework" := by
  have hp : substrOf pdfExt (lowerL url) = true := by
    obtain ⟨pre, hpre⟩ := hpdf
    have h2 : lowerL url = pre ++ (pdfExt ++ []) := by simp [hpre]
    rw [h2]; exact substrOf_of_parts _ _ _
  have hh : anyKwIn HOMEWORK_KEYWORDS (lowerL text) = true := by
    obtain ⟨kw, hkw, l, t, h⟩ := hhw
    refine List.any_eq_true.2 ⟨kw, hkw, ?_⟩
    rw [h]; exact substrOf_of_parts _ _ _
  have hres : classify_link text href url =
      (if anyKwIn TEXTBOOK_KEYWORDS (lowerL text) then str "textbook_pdf"
       else str "homework_pdf") := by
    by_cases htb : anyKwIn TEXTBOOK_KEYWORDS (lowerL text) = true
    · simp [classify_link, hp, htb]
    · simp only [Bool.not_eq_true] at htb
      simp [classify_link, hp, htb, hh]
  by_cases htb : anyKwIn TEXTBOOK_KEYWORDS (lowerL text) = true
  · rw [hres, if_pos htb]
    refine ⟨Or.inr rfl, ⟨fun hc => absurd hc (by decide), fun hc => ?_⟩,
      by decide, by decide⟩
    rw [hc] at htb
    cases htb
  · simp only [Bool.not_eq_true] at htb
    rw [hres, if_neg (by simp [htb])]
    exact ⟨Or.inl rfl, ⟨fun _ => htb, fun _ => rfl⟩, by decide, by decide⟩

/-- C1 witness: the amended theorem applied to a concrete link whose URL is
`x.pdf` and whose text is exactly `homework`. -/
theorem classify_homework_pdf_amended_witness :
    classify_link (str "homework") (str "") (str "x.pdf") = str "homework_pdf" :=
  (classify_homework_pdf_amended (str "homework") (str "") (str "x.pdf")
      ⟨str "x", by decide⟩
      ⟨str "homework", by decide, [], [], by decide⟩).2.1.mpr (by decide)

/-! ## Claim C2 — the "Recommended Textbook" scenario -/

/-- C2 (counterexample): the spec's scenario says a link with text
`Recommended Textbook` and an `.html` href classifies as `textbook`.  It does
not: the recitation keyword `rec` is a substring of `recommended`, and the
recitation rule is checked before the textbook rule (line 213 before
line 217), so the link classifies as `recitation`. -/
theorem recommended_textbook_counterexample :
    classify_link (str "Recommended Textbook") (str "textbook.html")
        (str "https://cs.example.edu/textbook.html") ≠ str "textbook" := by decide

/-- C2 (amended): the link with text `Recommended Textbook` and href
`textbook.html` (PDF-free resolved URL) classifies as `recitation` — the
keyword `rec` matches inside `recommended` before the textbook keywords are
consulted — not as `textbook` or `textbook_pdf`; and the orchestrator never
invokes the Downloader on it: the download guard of line 341 is false, so
`processTopLink` leaves the state (network log and store) and the link
untouched and just routes it. -/
theorem recommended_textbook_amended :
    classify_link (str "Recommended Textbook") (str "textbook.html")
        (str "https://cs.example.edu/textbook.html") = str "recitation" ∧
    (∀ (pathOf : Str → Str) (dlnet : Str → Option Str) (now : Nat)
       (code : Str) (st : ScrapeState) (r : CrawlResult),
       processTopLink pathOf dlnet now code st r
         { url := str "https://cs.example.edu/textbook.html",
           text := str "Recommended Textbook",
           type := classify_link (str "Recommended Textbook") (str "textbook.html")
                     (str "https://cs.example.edu/textbook.html"),
           href := str "textbook.html", local_filename := none } =
         ({ r with recitations := r.recitations ++
             [{ url := str "https://cs.example.edu/textbook.html",
                text := str "Recommended Textbook",
                type := str "recitation",
                href := str "textbook.html", local_filename := none }] }, st,
          { url := str "https://cs.example.edu/textbook.html",
            text := str "Recommended Textbook",
            type := str "recitation",
            href := str "textbook.html", local_filename := none })) := by
  constructor
  · decide
  · intro pathOf dlnet now code st r
    have hcls : classify_link (str "Recommended Textbook") (str "textbook.html")
        (str "https://cs.example.edu/textbook.html") = str "recitation" := by decide
    simp only [processTopLink, hcls]
    have hsd : shouldDownload
        { url := str "https://cs.example.edu/textbook.html",
          text := str "Recommended Textbook",
          type := str "recitation",
          href := str "textbook.html", local_filename := none } = false := by decide
    rw [if_neg (by simp [hsd])]
    have hroute : routeLink r
        { url := str "https://cs.example.edu/textbook.html",
          text := str "Recommended Textbook",
          type := str "recitation",
          href := str "textbook.html", local_filename := none } (str "recitation") =
        { r with recitations := r.recitations ++
            [{ url := str "https://cs.example.edu/textbook.html",
               text := str "Recommended Textbook",
               type := str "recitation",
               href := str "textbook.html", local_filename := none }] } := by
      unfold routeLink
      rw [if_neg (by decide), if_pos (by decide)]
    rw [hroute]

/-! ## Claim C7 — downloader dedup short-circuit -/

/-- C7: if the derived sanitised target filename already exists in the
content store, `download_file` returns exactly that filename and leaves the
state — in particular the network request log and the store — completely
unchanged: no network request is issued and no stored file is touched. -/
theorem download_file_short_circuit (pathOf : Str → Str) (dlnet : Str → Option Str)
    (now : Nat) (st : ScrapeState) (url course_code link_type : Str)
    (h : derivedFilename pathOf now url course_code link_type ∈ st.store) :
    download_file pathOf dlnet now st url course_code link_type =
      (some (derivedFilename pathOf now url course_code link_type), st) := by
  simp [download_file, h]

/-- C7 witness: concrete instance where `b.pdf` is already stored. -/
theorem download_file_short_circuit_witness :
    download_file (fun _ => str "/a/b.pdf") (fun _ => none) 7
        ⟨[], [], [str "b.pdf"]⟩ (str "http://x/a/b.pdf") (str "15-213") (str "textbook_pdf") =
      (some (str "b.pdf"), ⟨[], [], [str "b.pdf"]⟩) :=
  (download_file_short_circuit (fun _ => str "/a/b.pdf") (fun _ => none) 7
      ⟨[], [], [str "b.pdf"]⟩ (str "http://x/a/b.pdf") (str "15-213") (str "textbook_pdf")
      (by decide)).trans (by decide)

/-! ## Claim C8 — candidate URL list -/

theorem findDDDDD_groups (s : Str) (dd ddd : Str) (h : findDDDDD s = some (dd, ddd)) :
    dd.length = 2 ∧ ddd.length = 3 := by
  induction s with
  | nil => simp [findDDDDD] at h
  | cons c cs ih =>
    rw [show findDDDDD (c :: cs) =
        (match matchDDDDDAt (c :: cs) with
         | some r => some r
         | none => findDDDDD cs) from rfl] at h
    cases hm : matchDDDDDAt (c :: cs) with
    | some r =>
      rw [hm] at h
      have hr : r = (dd, ddd) := by injection h
      subst hr
      unfold matchDDDDDAt at hm
      split at hm
      · split at hm
        · injection hm with hm'
          cases hm'
          exact ⟨rfl, rfl⟩
        · cases hm
      · cases hm
    | none =>
      rw [hm] at h
      exact ih h

/-- C8: for any course code in which the regex `(\d{2})-(\d{3})` matches with
groups `dd` and `ddd`, the candidate list begins with the entry's recorded
URL and is followed by exactly the three derived alternates against the fixed
institutional root: `~ddd/`, `~dd ddd/` (full five digits), and the
zero-padded `~0ddd/`. -/
theorem try_alternative_urls_spec (course_code original_url dd ddd : Str)
    (h : findDDDDD course_code = some (dd, ddd)) :
    try_alternative_urls course_code original_url =
      [original_url,
       cmuRoot ++ ddd ++ str "/",
       cmuRoot ++ dd ++ ddd ++ str "/",
       cmuRoot ++ str "0" ++ ddd ++ str "/"] := by
  have h3 : ddd.length = 3 := (findDDDDD_groups course_code dd ddd h).2
  simp [try_alternative_urls, h, h3]

/-- C8 witness: for `15-213` the derived alternates are exactly
`https://www.cs.cmu.edu/~213/`, `https://www.cs.cmu.edu/~15213/` and
`https://www.cs.cmu.edu/~0213/`. -/
theorem try_alternative_urls_witness :
    try_alternative_urls (str "15-213") (str "http://orig/") =
      [str "http://orig/", str "https://www.cs.cmu.edu/~213/",
       str "https://www.cs.cmu.edu/~15213/", str "https://www.cs.cmu.edu/~0213/"] :=
  (try_alternative_urls_spec (str "15-213") (str "http://orig/")
      (str "15") (str "213") (by decide)).trans (by decide)

/-! ## Claim C10 — course record loading requires both code and URL -/

/-- C10: `load_course_files` keeps exactly the files whose content matches
both the `Course Code: DD-DDD` pattern and the `Course URL: http(s)://…`
pattern; in particular a record with a valid course code but no URL line is
silently excluded — exclusion is not limited to records missing the code, as
the concrete conjuncts show on a file that has `Course Code: 15-213` but no
`Course URL:` line. -/
theorem load_course_files_requires_code_and_url :
    (∀ f : CourseFile, (loadCourseFile f).isSome =
        ((findCourseCode f.content).isSome && (findCourseUrl f.content).isSome)) ∧
    load_course_files [⟨str "a.txt", str "Course Code: 15-213\nNo url here\n"⟩] = [] ∧
    findCourseCode (str "Course Code: 15-213\nNo url here\n") = some (str "15-213") := by
  refine ⟨fun f => ?_, by decide, by decide⟩
  unfold loadCourseFile
  cases hc : findCourseCode f.content with
  | none => simp
  | some code =>
    cases hu : findCourseUrl f.content with
    | none => simp
    | some url => simp

/-! ## Claim C4 — VisitedSet semantics -/

theorem fetch_page_fail_state (net : Str → Option (List RawLink)) (st : ScrapeState)
    (u : Str) (h : (fetch_page net st u).1 = none) :
    (fetch_page net st u).2.scraped_urls = st.scraped_urls := by
  unfold fetch_page at *
  by_cases hv : u ∈ st.scraped_urls
  · simp [hv]
  · simp only [hv, if_neg, if_false] at *
    cases hn : net u with
    | none => simp [hn]
    | some page => rw [hn] at h; simp at h

theorem fetch_page_success_state (net : Str → Option (List RawLink)) (st : ScrapeState)
    (u : Str) (h : (fetch_page net st u).1.isSome = true) :
    u ∉ st.scraped_urls ∧
      (fetch_page net st u).2.scraped_urls = st.scraped_urls ++ [u] := by
  unfold fetch_page at *
  by_cases hv : u ∈ st.scraped_urls
  · simp [hv] at h
  · refine ⟨hv, ?_⟩
    simp only [hv, if_neg, if_false] at *
    cases hn : net u with
    | none => rw [hn] at h; simp at h
    | some page => simp [hn]

theorem runFetch_successes_fresh (net : Str → Option (List RawLink)) :
    ∀ (us : List Str) (st : ScrapeState),
      ((runFetch net st us).2).Nodup ∧
        ∀ v ∈ (runFetch net st us).2, v ∉ st.scraped_urls := by
  intro us
  induction us with
  | nil => intro st; simp [runFetch]
  | cons u us ih =>
    intro st
    rcases hf : fetch_page net st u with ⟨o, st'⟩
    cases o with
    | some page =>
      have hsucc : (fetch_page net st u).1.isSome = true := by rw [hf]; rfl
      obtain ⟨hnotin, hadd⟩ := fetch_page_success_state net st u hsucc
      have hst' : st'.scraped_urls = st.scraped_urls ++ [u] := by
        rw [hf] at hadd; exact hadd
      have hrun : runFetch net st (u :: us) = ((runFetch net st' us).1, u :: (runFetch net st' us).2) := by
        simp [runFetch, hf]
      obtain ⟨hnd, hfresh⟩ := ih st'
      rw [hrun]
      constructor
      · refine List.nodup_cons.2 ⟨?_, hnd⟩
        intro hmem
        exact hfresh u hmem (by rw [hst']; simp)
      · intro v hv
        rcases List.mem_cons.1 hv with rfl | hv'
        · exact hnotin
        · intro hvin
          exact hfresh v hv' (by rw [hst']; exact List.mem_append_left _ hvin)
    | none =>
      have hfail : (fetch_page net st u).1 = none := by rw [hf]
      have hst' : st'.scraped_urls = st.scraped_urls := by
        have := fetch_page_fail_state net st u hfail
        rw [hf] at this; exact this
      have hrun : runFetch net st (u :: us) = runFetch net st' us := by
        simp [runFetch, hf]
      obtain ⟨hnd, hfresh⟩ := ih st'
      rw [hrun]
      exact ⟨hnd, fun v hv hvin => hfresh v hv (by rw [hst']; exact hvin)⟩

/-- C4 (amended): the VisitedSet behaviour of `fetch_page`: (1) a URL already
in the VisitedSet is skipped — `fetch_page` returns null and the state,
including the network request log, is completely unchanged, so no network
request is issued; (2) the URL is added to the VisitedSet exactly when the
fetch succeeds; (3) consequently, in any sequence of `fetch_page` calls no
URL is ever *successfully* fetched twice.  (The original claim's stronger
reading — no URL is network-requested twice — fails for URLs whose fetches
fail, see the counterexample.) -/
theorem fetch_page_visited_spec :
    (∀ (net : Str → Option (List RawLink)) (st : ScrapeState) (u : Str),
       u ∈ st.scraped_urls → fetch_page net st u = (none, st)) ∧
    (∀ (net : Str → Option (List RawLink)) (st : ScrapeState) (u : Str),
       (fetch_page net st u).2.scraped_urls =
         st.scraped_urls ++ (if (fetch_page net st u).1.isSome then [u] else [])) ∧
    (∀ (net : Str → Option (List RawLink)) (st : ScrapeState) (us : List Str),
       ((runFetch net st us).2).Nodup) := by
  refine ⟨?_, ?_, ?_⟩
  · intro net st u h
    simp [fetch_page, h]
  · intro net st u
    cases hs : (fetch_page net st u).1 with
    | some page =>
      have := (fetch_page_success_state net st u (by rw [hs]; rfl)).2
      simp [this, hs]
    | none =>
      have := fetch_page_fail_state net st u hs
      simp [this, hs]
  · intro net st us
    exact (runFetch_successes_fresh net us st).1

/-- C4 witness: the first conjunct of the amended theorem applied to a state
whose VisitedSet already holds the URL. -/
theorem fetch_page_visited_spec_witness :
    fetch_page (fun _ => none) ⟨[str "u"], [], []⟩ (str "u") =
      (none, ⟨[str "u"], [], []⟩) :=
  fetch_page_visited_spec.1 (fun _ => none) ⟨[str "u"], [], []⟩ (str "u") (by decide)

/-- C4 (counterexample): the claim that *no URL is network-fetched twice
within a single crawl invocation* is false.  For course `15-213` whose
recorded URL is itself `https://www.cs.cmu.edu/~213/`, the candidate list
duplicates that URL; with an unreachable network, a failed fetch does not
mark the URL visited, so one `scrape_course` invocation issues the GET for
`https://www.cs.cmu.edu/~213/` twice, as the request log shows. -/
theorem scrape_course_refetch_counterexample :
    (scrape_course (fun _ h => h) (fun _ => []) (fun _ => none) (fun _ => none) 0
        ⟨[], [], []⟩
        ⟨str "15-213", str "f", str "https://www.cs.cmu.edu/~213/", str ""⟩).2.requested =
      [str "https://www.cs.cmu.edu/~213/", str "https://www.cs.cmu.edu/~213/",
       str "https://www.cs.cmu.edu/~15213/", str "https://www.cs.cmu.edu/~0213/"] := by
  decide

/-! ## Claim C5 — all-candidates-fail crawl -/

theorem fetchFirst_all_fail (net : Str → Option (List RawLink)) :
    ∀ (us : List Str) (st : ScrapeState), (∀ u ∈ us, net u = none) →
      ∃ st', fetchFirst net st us = (none, st') := by
  intro us
  induction us with
  | nil => intro st _; exact ⟨st, rfl⟩
  | cons u us ih =>
    intro st h
    have hu : net u = none := h u (List.mem_cons_self u us)
    have hfail : (fetch_page net st u).1 = none := by
      unfold fetch_page
      by_cases hv : u ∈ st.scraped_urls
      · simp [hv]
      · simp [hv, hu]
    rcases hf : fetch_page net st u with ⟨o, st1⟩
    rw [hf] at hfail
    simp only at hfail
    subst hfail
    obtain ⟨st', hrec⟩ := ih st1 fun v hv => h v (List.mem_cons_of_mem u hv)
    exact ⟨st', by simp [fetchFirst, hf, hrec]⟩

/-- C5: when the fetch of every candidate URL fails, `scrape_course` returns
a result whose five category lists are all empty and whose `errors` list is
non-empty; moreover every attempted candidate URL occurs (as a substring) in
an entry of `errors` — the single error line lists all attempted URLs. -/
theorem scrape_course_all_fail (join : Str → Str → Str) (pathOf : Str → Str)
    (net : Str → Option (List RawLink)) (dlnet : Str → Option Str) (now : Nat)
    (st : ScrapeState) (course : CourseEntry)
    (h : ∀ u ∈ try_alternative_urls course.code course.url, net u = none) :
    (scrape_course join pathOf net dlnet now st course).1.textbooks = [] ∧
    (scrape_course join pathOf net dlnet now st course).1.recitations = [] ∧
    (scrape_course join pathOf net dlnet now st course).1.homeworks = [] ∧
    (scrape_course join pathOf net dlnet now st course).1.lectures = [] ∧
    (scrape_course join pathOf net dlnet now st course).1.other_links = [] ∧
    (scrape_course join pathOf net dlnet now st course).1.errors ≠ [] ∧
    ∀ u ∈ try_alternative_urls course.code course.url,
      ∃ e ∈ (scrape_course join pathOf net dlnet now st course).1.errors,
        substrOf u e = true := by
  obtain ⟨st', hf⟩ := fetchFirst_all_fail net (try_alternative_urls course.code course.url) st h
  have hres : (scrape_course join pathOf net dlnet now st course).1 =
      { code := course.code, url := course.url, textbooks := [], recitations := [],
        homeworks := [], lectures := [], other_links := [],
        errors := [str "Failed to fetch main page. Tried: " ++
          joinSep (str ", ") (try_alternative_urls course.code course.url)] } := by
    simp [scrape_course, hf]
  refine ⟨by rw [hres], by rw [hres], by rw [hres], by rw [hres], by rw [hres],
    by rw [hres]; simp, ?_⟩
  intro u hu
  rw [hres]
  refine ⟨str "Failed to fetch main page. Tried: " ++
    joinSep (str ", ") (try_alternative_urls course.code course.url), by simp, ?_⟩
  obtain ⟨l, t, hjoin⟩ := joinSep_mem_parts (str ", ") _ u hu
  rw [hjoin, ← List.append_assoc]
  exact substrOf_of_parts _ _ _

/-- C5 witness: a `15-213` course with an unreachable network yields empty
buckets and a non-empty error list. -/
theorem scrape_course_all_fail_witness :
    (scrape_course (fun _ h => h) (fun _ => []) (fun _ => none) (fun _ => none) 0
        ⟨[], [], []⟩
        ⟨str "15-213", str "f", str "http://dead/", str ""⟩).1.textbooks = [] ∧
    (scrape_course (fun _ h => h) (fun _ => []) (fun _ => none) (fun _ => none) 0
        ⟨[], [], []⟩
        ⟨str "15-213", str "f", str "http://dead/", str ""⟩).1.errors ≠ [] := by
  have h := scrape_course_all_fail (fun _ h => h) (fun _ => []) (fun _ => none)
    (fun _ => none) 0 ⟨[], [], []⟩
    ⟨str "15-213", str "f", str "http://dead/", str ""⟩ (fun _ _ => rfl)
  exact ⟨h.1, h.2.2.2.2.2.1⟩

/-! ## Claim C9 — sub-page fan-out frame -/

theorem mergeSubLink_frame (r : CrawlResult) (sl : Link) :
    (mergeSubLink r sl).lectures = r.lectures ∧
      (mergeSubLink r sl).other_links = r.other_links := by
  unfold mergeSubLink
  split
  · split <;> simp
  · split
    · split <;> simp
    · split
      · split <;> simp
      · simp

theorem processSubLink_frame (pathOf : Str → Str) (dlnet : Str → Option Str) (now : Nat)
    (course_code : Str) (acc : CrawlResult × ScrapeState) (sl : Link) :
    (processSubLink pathOf dlnet now course_code acc sl).1.lectures = acc.1.lectures ∧
      (processSubLink pathOf dlnet now course_code acc sl).1.other_links = acc.1.other_links := by
  unfold processSubLink
  split
  · rcases hdl : download_file pathOf dlnet now acc.2 sl.url course_code sl.type with ⟨o, st'⟩
    cases o with
    | some fn => simp only [hdl]; exact mergeSubLink_frame _ _
    | none => simp only [hdl]; exact mergeSubLink_frame _ _
  · exact mergeSubLink_frame _ _

theorem foldl_frame {α β γ : Type} (proj : β → γ) (step : β → α → β)
    (h : ∀ b a, proj (step b a) = proj b) :
    ∀ (l : List α) (b : β), proj (List.foldl step b l) = proj b := by
  intro l
  induction l with
  | nil => intro b; rfl
  | cons x xs ih => intro b; rw [List.foldl_cons, ih, h]

theorem processSubPageLink_frame (join : Str → Str → Str) (pathOf : Str → Str)
    (net : Str → Option (List RawLink)) (dlnet : Str → Option Str) (now : Nat)
    (course_code page_name : Str) (acc : CrawlResult × ScrapeState) (link : Link) :
    (processSubPageLink join pathOf net dlnet now course_code page_name acc link).1.lectures
        = acc.1.lectures ∧
      (processSubPageLink join pathOf net dlnet now course_code page_name acc link).1.other_links
        = acc.1.other_links := by
  unfold processSubPageLink
  split
  · rcases hf : fetch_page net acc.2 link.url with ⟨o, st'⟩
    cases o with
    | some sub_page =>
      simp only [hf]
      have := foldl_frame (fun b : CrawlResult × ScrapeState => (b.1.lectures, b.1.other_links))
        (processSubLink pathOf dlnet now course_code)
        (fun b a => by
          have h := processSubLink_frame pathOf dlnet now course_code b a
          simp [h.1, h.2])
        (find_all_links join sub_page link.url) (acc.1, st')
      exact ⟨congrArg Prod.fst this, congrArg Prod.snd this⟩
    | none => simp [hf]
  · exact ⟨rfl, rfl⟩

/-- C9: the sub-page fan-out pass never touches the `lectures` or
`other_links` buckets — whatever sub-pages it fetches and whatever it
downloads, those two lists of the returned CrawlResult are exactly the input
ones — and a sub-page link classified `lecture` or `lecture_pdf` is never
added to any bucket: the merge step leaves the whole result unchanged for
it. -/
theorem subPageFanout_frame :
    (∀ (join : Str → Str → Str) (pathOf : Str → Str)
       (net : Str → Option (List RawLink)) (dlnet : Str → Option Str) (now : Nat)
       (course_code : Str) (st : ScrapeState) (links : List Link) (r : CrawlResult),
       (subPageFanout join pathOf net dlnet now course_code st links r).1.lectures = r.lectures ∧
       (subPageFanout join pathOf net dlnet now course_code st links r).1.other_links
         = r.other_links) ∧
    (∀ (r : CrawlResult) (sl : Link),
       sl.type = str "lecture" ∨ sl.type = str "lecture_pdf" → mergeSubLink r sl = r) := by
  constructor
  · intro join pathOf net dlnet now course_code st links r
    have hinner : ∀ (pn : Str) (b : CrawlResult × ScrapeState),
        ((List.foldl (processSubPageLink join pathOf net dlnet now course_code pn) b links).1.lectures,
         (List.foldl (processSubPageLink join pathOf net dlnet now course_code pn) b links).1.other_links)
          = (b.1.lectures, b.1.other_links) := by
      intro pn b
      exact foldl_frame (fun b : CrawlResult × ScrapeState => (b.1.lectures, b.1.other_links))
        (processSubPageLink join pathOf net dlnet now course_code pn)
        (fun b a => by
          have h := processSubPageLink_frame join pathOf net dlnet now course_code pn b a
          simp [h.1, h.2]) links b
    have houter := foldl_frame (fun b : CrawlResult × ScrapeState => (b.1.lectures, b.1.other_links))
      (fun acc pn => List.foldl (processSubPageLink join pathOf net dlnet now course_code pn) acc links)
      (fun b pn => hinner pn b) common_pages (r, st)
    unfold subPageFanout
    exact ⟨congrArg Prod.fst houter, congrArg Prod.snd houter⟩
  · intro r sl h
    unfold mergeSubLink
    rcases h with h | h <;>
      rw [h, if_neg (by decide), if_neg (by decide), if_neg (by decide)]

/-- C9 witness: the merge step drops a concrete lecture-classified sub-page
link, leaving an arbitrary concrete result unchanged. -/
theorem subPageFanout_frame_witness :
    mergeSubLink
      { code := str "15-213", url := str "u", textbooks := [], recitations := [],
        homeworks := [], lectures := [], other_links := [], errors := [] }
      { url := str "http://x/l1.html", text := str "Lecture 1",
        type := str "lecture", href := str "l1.html", local_filename := none } =
      { code := str "15-213", url := str "u", textbooks := [], recitations := [],
        homeworks := [], lectures := [], other_links := [], errors := [] } :=
  subPageFanout_frame.2 _ _ (Or.inl rfl)

/-! ## Claim C3 — category tags after download -/

theorem classify_link_pdf_cases (text href url : Str)
    (hp : substrOf pdfExt (lowerL url) = true) :
    classify_link text href url ∈
      [str "textbook_pdf", str "homework_pdf", str "recitation_pdf",
       str "lecture_pdf", str "pdf"] := by
  simp only [classify_link, hp, if_true]
  split
  · simp
  · split
    · simp
    · split
      · simp
      · split <;> simp

theorem classify_link_nonpdf_cases (text href url : Str)
    (hp : substrOf pdfExt (lowerL url) = false) :
    classify_link text href url ∈
      [str "homework", str "recitation", str "textbook", str "lecture",
       str "other"] := by
  simp only [classify_link, hp, Bool.false_eq_true, if_false]
  split
  · simp
  · split
    · simp
    · split
      · simp
      · split <;> simp

/-- C3 (counterexample): the claim that the `_pdf` suffix is appended *only
if the tag is not already suffixed*, keeping every stored category inside the
enumerated set, is false.  In a concrete crawl whose landing page carries a
homework PDF link (classified `homework_pdf`) and whose download succeeds,
line 348 appends `_pdf` unconditionally, so the link is stored in the
homeworks bucket with the doubled category `homework_pdf_pdf`, which lies
outside the enumerated set. -/
theorem double_pdf_suffix_counterexample :
    (scrape_course (fun _ h => str "http://x/" ++ h) (fun _ => str "/hw1.pdf")
        (fun u => if u = str "http://x/" then some [⟨str "hw1.pdf", str "homework 1"⟩] else none)
        (fun _ => some (str "application/pdf")) 0 ⟨[], [], []⟩
        ⟨str "xx", str "f", str "http://x/", str ""⟩).1.homeworks =
      [{ url := str "http://x/hw1.pdf", text := str "homework 1",
         type := str "homework_pdf_pdf", href := str "hw1.pdf",
         local_filename := some (str "hw1.pdf") }] ∧
    str "homework_pdf_pdf" ∉ categoryEnum := by decide

theorem processTopLink_noDownload (pathOf : Str → Str) (dlnet : Str → Option Str)
    (now : Nat) (course_code : Str) (st : ScrapeState) (r : CrawlResult) (link : Link)
    (hsd : shouldDownload link = false) :
    processTopLink pathOf dlnet now course_code st r link =
      (routeLink r link link.type, st, link) := by
  simp [processTopLink, hsd]

theorem processTopLink_download (pathOf : Str → Str) (dlnet : Str → Option Str)
    (now : Nat) (course_code : Str) (st : ScrapeState) (r : CrawlResult) (link : Link)
    (hsd : shouldDownload link = true)
    (hcond : (substrOf pdfExt (lowerL link.url) && decide (link.type = str "other")) = false) :
    processTopLink pathOf dlnet now course_code st r link =
      (match download_file pathOf dlnet now st link.url course_code link.type with
       | (some filename, st') =>
           (routeLink r
              { url := link.url, text := link.text, type := link.type ++ str "_pdf",
                href := link.href, local_filename := some filename } link.type, st',
            { url := link.url, text := link.text, type := link.type ++ str "_pdf",
              href := link.href, local_filename := some filename })
       | (none, st') => (routeLink r link link.type, st', link)) := by
  simp [processTopLink, hsd, hcond]

/-- C3 (amended): for a link whose stored category comes from
`classify_link` (as every link of a crawl does), the top-level processing
step behaves as follows.  The download guard fires exactly when the category
is one of the four `*_pdf` keyword categories; whenever such a link's
download succeeds, line 348 appends `_pdf` unconditionally, so *every*
successfully downloaded link is stored with the doubled suffix, which lies
outside the enumerated set; in every other case the stored category is left
unchanged and lies within the enumerated set. -/
theorem processTopLink_type_spec (pathOf : Str → Str) (dlnet : Str → Option Str)
    (now : Nat) (course_code : Str) (st : ScrapeState) (r : CrawlResult) (link : Link)
    (hcls : link.type = classify_link link.text link.href link.url) :
    (shouldDownload link = true ↔
       link.type ∈ [str "textbook_pdf", str "homework_pdf", str "recitation_pdf",
                    str "lecture_pdf"]) ∧
    (link.type ∈ [str "textbook_pdf", str "homework_pdf", str "recitation_pdf",
                  str "lecture_pdf"] ∧
       (download_file pathOf dlnet now st link.url course_code link.type).1.isSome = true →
       (processTopLink pathOf dlnet now course_code st r link).2.2.type
           = link.type ++ str "_pdf" ∧
       (processTopLink pathOf dlnet now course_code st r link).2.2.type ∉ categoryEnum) ∧
    (¬(link.type ∈ [str "textbook_pdf", str "homework_pdf", str "recitation_pdf",
                    str "lecture_pdf"] ∧
         (download_file pathOf dlnet now st link.url course_code link.type).1.isSome
           = true) →
       (processTopLink pathOf dlnet now course_code st r link).2.2.type = link.type ∧
       (processTopLink pathOf dlnet now course_code st r link).2.2.type ∈ categoryEnum) := by
  by_cases hp : substrOf pdfExt (lowerL link.url) = true
  · have hmem := classify_link_pdf_cases link.text link.href link.url hp
    rw [← hcls] at hmem
    simp only [List.mem_cons, List.not_mem_nil, or_false] at hmem
    have hdlcase : link.type ∈
        [str "textbook_pdf", str "homework_pdf", str "recitation_pdf", str "lecture_pdf"] →
        endsWithB (str "_pdf") link.type = true →
        decide (link.type = str "other") = false →
        link.type ++ str "_pdf" ∉ categoryEnum →
        link.type ∈ categoryEnum →
        (shouldDownload link = true ↔
           link.type ∈ [str "textbook_pdf", str "homework_pdf", str "recitation_pdf",
                        str "lecture_pdf"]) ∧
        (link.type ∈ [str "textbook_pdf", str "homework_pdf", str "recitation_pdf",
                      str "lecture_pdf"] ∧
           (download_file pathOf dlnet now st link.url course_code link.type).1.isSome
             = true →
           (processTopLink pathOf dlnet now course_code st r link).2.2.type
               = link.type ++ str "_pdf" ∧
           (processTopLink pathOf dlnet now course_code st r link).2.2.type
             ∉ categoryEnum) ∧
        (¬(link.type ∈ [str "textbook_pdf", str "homework_pdf", str "recitation_pdf",
                        str "lecture_pdf"] ∧
             (download_file pathOf dlnet now st link.url course_code link.type).1.isSome
               = true) →
           (processTopLink pathOf dlnet now course_code st r link).2.2.type = link.type ∧
           (processTopLink pathOf dlnet now course_code st r link).2.2.type
             ∈ categoryEnum) := by
      intro hmem4 hsuf hno hne hin
      have hsd : shouldDownload link = true := by
        simp [shouldDownload, hsuf]
      have hcond : (substrOf pdfExt (lowerL link.url) && decide (link.type = str "other"))
          = false := by simp [hno]
      have heq := processTopLink_download pathOf dlnet now course_code st r link hsd hcond
      refine ⟨iff_of_true hsd hmem4, ?_, ?_⟩
      · rintro ⟨-, hsome⟩
        cases hdl : download_file pathOf dlnet now st link.url course_code link.type with
        | mk o st' =>
          cases o with
          | some fn =>
            rw [hdl] at heq
            refine ⟨by rw [heq], ?_⟩
            rw [heq]
            show link.type ++ str "_pdf" ∉ categoryEnum
            exact hne
          | none =>
            rw [hdl] at hsome
            simp at hsome
      · intro hnot
        have hnotsome :
            ¬((download_file pathOf dlnet now st link.url course_code link.type).1.isSome
              = true) := fun hs => hnot ⟨hmem4, hs⟩
        cases hdl : download_file pathOf dlnet now st link.url course_code link.type with
        | mk o st' =>
          cases o with
          | some fn =>
            rw [hdl] at hnotsome
            exact absurd rfl hnotsome
          | none =>
            rw [hdl] at heq
            refine ⟨by rw [heq], ?_⟩
            rw [heq]
            show link.type ∈ categoryEnum
            exact hin
    rcases hmem with h | h | h | h | h
    · exact hdlcase (by rw [h]; decide) (by rw [h]; decide) (by rw [h]; decide)
        (by rw [h]; decide) (by rw [h]; decide)
    · exact hdlcase (by rw [h]; decide) (by rw [h]; decide) (by rw [h]; decide)
        (by rw [h]; decide) (by rw [h]; decide)
    · exact hdlcase (by rw [h]; decide) (by rw [h]; decide) (by rw [h]; decide)
        (by rw [h]; decide) (by rw [h]; decide)
    · exact hdlcase (by rw [h]; decide) (by rw [h]; decide) (by rw [h]; decide)
        (by rw [h]; decide) (by rw [h]; decide)
    · have hsd : shouldDownload link = false := by
        simp only [shouldDownload, h]
        rw [show endsWithB (str "_pdf") (str "pdf") = false from by decide,
          show decide (str "pdf" = str "other") = false from by decide]
        simp
      have heq := processTopLink_noDownload pathOf dlnet now course_code st r link hsd
      refine ⟨iff_of_false (by simp [hsd]) (by rw [h]; decide), ?_, ?_⟩
      · rintro ⟨hmem4, -⟩
        rw [h] at hmem4
        exact absurd hmem4 (by decide)
      · intro hnot
        refine ⟨by rw [heq], ?_⟩
        rw [heq]
        show link.type ∈ categoryEnum
        rw [h]; decide
  · have hp' : substrOf pdfExt (lowerL link.url) = false := by
      simpa using hp
    have hmem := classify_link_nonpdf_cases link.text link.href link.url hp'
    rw [← hcls] at hmem
    simp only [List.mem_cons, List.not_mem_nil, or_false] at hmem
    have hsd : shouldDownload link = false := by
      simp only [shouldDownload, hp', Bool.false_and, Bool.or_false]
      rcases hmem with h | h | h | h | h <;> rw [h] <;> decide
    have heq := processTopLink_noDownload pathOf dlnet now course_code st r link hsd
    refine ⟨iff_of_false (by simp [hsd]) ?_, ?_, ?_⟩
    · rcases hmem with h | h | h | h | h <;> rw [h] <;> decide
    · rintro ⟨hmem4, -⟩
      rcases hmem with h | h | h | h | h <;>
        (rw [h] at hmem4; exact absurd hmem4 (by decide))
    · intro hnot
      refine ⟨by rw [heq], ?_⟩
      rw [heq]
      show link.type ∈ categoryEnum
      rcases hmem with h | h | h | h | h <;> (rw [h]; decide)

/-- C3 witness: a homework PDF link with a succeeding downloader — the
amended theorem's "success forces the doubled suffix" conjunct instantiated
concretely: the stored category becomes `homework_pdf_pdf`, outside the
enumerated set. -/
theorem processTopLink_type_spec_witness :
    (processTopLink (fun _ => str "/hw1.pdf") (fun _ => some (str "application/pdf")) 0
        (str "xx") ⟨[], [], []⟩
        { code := str "xx", url := str "u", textbooks := [], recitations := [],
          homeworks := [], lectures := [], other_links := [], errors := [] }
        { url := str "http://x/hw1.pdf", text := str "homework 1",
          type := str "homework_pdf", href := str "hw1.pdf",
          local_filename := none }).2.2.type = str "homework_pdf" ++ str "_pdf" ∧
    (processTopLink (fun _ => str "/hw1.pdf") (fun _ => some (str "application/pdf")) 0
        (str "xx") ⟨[], [], []⟩
        { code := str "xx", url := str "u", textbooks := [], recitations := [],
          homeworks := [], lectures := [], other_links := [], errors := [] }
        { url := str "http://x/hw1.pdf", text := str "homework 1",
          type := str "homework_pdf", href := str "hw1.pdf",
          local_filename := none }).2.2.type ∉ categoryEnum :=
  (processTopLink_type_spec (fun _ => str "/hw1.pdf")
      (fun _ => some (str "application/pdf")) 0 (str "xx") ⟨[], [], []⟩
      { code := str "xx", url := str "u", textbooks := [], recitations := [],
        homeworks := [], lectures := [], other_links := [], errors := [] }
      { url := str "http://x/hw1.pdf", text := str "homework 1",
        type := str "homework_pdf", href := str "hw1.pdf", local_filename := none }
      (by decide)).2.1 ⟨by decide, by decide⟩

/-! ## Claim C6 — behaviour of a second updater run -/

theorem isPref_length {pat s : Str} (h : isPref pat s = true) : pat.length ≤ s.length := by
  obtain ⟨t, rfl⟩ := (isPref_iff pat s).1 h
  simp

/-- Inserting anything at the end position of the leftmost `Course URL:` line
match does not move that match: the leftmost match of the extended text ends
at the same position `p`.  (`X` is arbitrary, so this applies to the text the
updater builds.) -/
theorem matchEnd_take_append (content X : Str) (p : Nat)
    (h : courseUrlMatchEnd content = some p) :
    p ≤ content.length ∧ courseUrlMatchEnd (content.take p ++ X) = some p := by
  obtain ⟨i, hlt, hvalid, hlen⟩ := matchEnd_inv content p h
  have hval := hvalid
  unfold cuValidHere at hval
  rw [Bool.and_eq_true] at hval
  obtain ⟨hpref, hnl⟩ := hval
  rw [List.drop_drop] at hnl
  obtain ⟨a, b, hab, hno, hidx⟩ := anyNl_decomp _ hnl
  have hplen : p = i + 12 + a.length := by
    rw [hlen]
    unfold cuMatchLen
    rw [List.drop_drop, hidx]
    omega
  have hcu11 : cuPat.length = 11 := by decide
  have hi11 : i + 11 ≤ content.length := by
    have h1 : cuPat.length ≤ (content.drop i).length := isPref_length hpref
    rw [List.length_drop, hcu11] at h1
    omega
  have hlendrop : (content.drop (i + 11)).length = a.length + 1 + b.length := by
    rw [hab]
    simp
    omega
  have hple : p ≤ content.length := by
    rw [List.length_drop] at hlendrop
    omega
  refine ⟨hple, ?_⟩
  have hdropEq : ∀ j, j ≤ p →
      (content.take p ++ X).drop j = (content.drop j).take (p - j) ++ X := by
    intro j hj
    rw [List.drop_append_of_le_length (by rw [List.length_take]; omega), List.drop_take]
  have hprefEq : ∀ j, j + 11 ≤ p →
      isPref cuPat ((content.take p ++ X).drop j) = isPref cuPat (content.drop j) := by
    intro j hj
    rw [hdropEq j (by omega),
      isPref_append_of_le _ _ _ (by rw [List.length_take, List.length_drop, hcu11]; omega),
      isPref_take_of_le _ _ _ (by rw [hcu11]; omega)]
  have hdropu : (content.take p ++ X).drop (i + 11) = a ++ '\n' :: X := by
    rw [hdropEq (i + 11) (by omega), hab]
    have hlen2 : p - (i + 11) = a.length + 1 := by omega
    rw [hlen2, List.take_append]
    simp
  have h1' : ∀ j, j < i → cuValidHere ((content.take p ++ X).drop j) = false := by
    intro j hj
    have hjp : j + 11 ≤ p := by omega
    have hfalse := hlt j hj
    have hmid : content.drop (j + 11) =
        (content.drop (j + 11)).take ((i + 11) - (j + 11)) ++ content.drop (i + 11) := by
      conv_lhs => rw [← List.take_append_drop ((i + 11) - (j + 11)) (content.drop (j + 11))]
      rw [List.drop_drop]
      congr 2
      omega
    have hanyj : anyNl (content.drop (j + 11)) = true := by
      rw [hmid, anyNl_append, hab, anyNl_parts]
      simp
    have hprefj : isPref cuPat (content.drop j) = false := by
      cases hpf : isPref cuPat (content.drop j) with
      | false => rfl
      | true =>
        exfalso
        unfold cuValidHere at hfalse
        rw [List.drop_drop, hpf, hanyj] at hfalse
        simp at hfalse
    unfold cuValidHere
    rw [hprefEq j hjp, hprefj]
    simp
  have h2' : cuValidHere ((content.take p ++ X).drop i) = true := by
    unfold cuValidHere
    rw [Bool.and_eq_true]
    refine ⟨by rw [hprefEq i (by omega)]; exact hpref, ?_⟩
    rw [List.drop_drop, hdropu]
    exact anyNl_parts a X
  have hmain := matchEnd_of_first_valid (content.take p ++ X) i h1' h2'
  rw [hmain]
  congr 1
  unfold cuMatchLen
  rw [List.drop_drop, hdropu, idxOfNl_parts a X hno]
  omega

theorem two_occurrences' (pat l m t : Str) (hne : pat ≠ []) :
    2 ≤ countOccur pat (l ++ (pat ++ (m ++ (pat ++ t)))) := by
  cases pat with
  | nil => exact absurd rfl hne
  | cons a as => exact two_occurrences a as l m t

theorem sectionsText_ne_nil (r : CrawlResult) : sectionsText r ≠ [] := by
  have h : ∃ tail, sectionsText r = 'B' :: tail := ⟨_, rfl⟩
  obtain ⟨tail, htail⟩ := h
  rw [htail]
  simp

/-- C6 (amended): the second Updater run on a record containing a
`Course URL:` line does not append a second block — it *replaces* the first
one.  Formally: (1) whenever the record text matches the `Course URL:`
pattern, `update(update(t,r,ts),r,ts') = update(t,r,ts')` — the first
appended block is discarded by the truncation of line 475, so the transform
is idempotent up to the timestamp; (2) only when the once-updated text still
has no `Course URL:` line does the claimed append-only behaviour hold: the
second run makes the text strictly longer by a full block and the result
contains two complete copies of the sections block. -/
theorem update_course_file_second_run_spec :
    (∀ (content : Str) (r : CrawlResult) (ts ts' : Str),
       (courseUrlMatchEnd content).isSome = true →
       update_course_file (update_course_file content r ts) r ts' =
         update_course_file content r ts') ∧
    (∀ (content : Str) (r : CrawlResult) (ts ts' : Str),
       courseUrlMatchEnd (update_course_file content r ts) = none →
       (update_course_file content r ts).length <
           (update_course_file (update_course_file content r ts) r ts').length ∧
         2 ≤ countOccur (sectionsText r)
               (update_course_file (update_course_file content r ts) r ts')) := by
  constructor
  · intro content r ts ts' h
    obtain ⟨p, hp⟩ := Option.isSome_iff_exists.mp h
    obtain ⟨hple, hstab⟩ := matchEnd_take_append content
      (str "\n" ++ (sectionsText r ++ (str "\n" ++ footerText r ts))) p hp
    have hu : update_course_file content r ts =
        content.take p ++ (str "\n" ++ (sectionsText r ++ (str "\n" ++ footerText r ts))) := by
      simp [update_course_file, hp, List.append_assoc]
    have hlen : (content.take p).length = p := by rw [List.length_take]; omega
    have hutake : (update_course_file content r ts).take p = content.take p := by
      rw [hu]; exact List.take_left' hlen
    have hstab' : courseUrlMatchEnd (update_course_file content r ts) = some p := by
      rw [hu]; exact hstab
    generalize hgen : update_course_file content r ts = u at hstab' hutake ⊢
    have hL : update_course_file u r ts' =
        u.take p ++ (str "\n" ++ (sectionsText r ++ (str "\n" ++ footerText r ts'))) := by
      simp [update_course_file, hstab', List.append_assoc]
    have hR : update_course_file content r ts' =
        content.take p ++ (str "\n" ++ (sectionsText r ++ (str "\n" ++ footerText r ts'))) := by
      simp [update_course_file, hp, List.append_assoc]
    rw [hL, hR, hutake]
  · intro content r ts ts' h
    have hform : ∃ pre, update_course_file content r ts =
        pre ++ (str "\n" ++ (sectionsText r ++ (str "\n" ++ footerText r ts))) := by
      unfold update_course_file
      cases hp : courseUrlMatchEnd content with
      | some p => exact ⟨content.take p, by simp [List.append_assoc]⟩
      | none => exact ⟨content, by simp [List.append_assoc]⟩
    obtain ⟨pre, hpre⟩ := hform
    generalize hgen : update_course_file content r ts = u at h hpre ⊢
    have houter : update_course_file u r ts' =
        u ++ (str "\n" ++ (sectionsText r ++ (str "\n" ++ footerText r ts'))) := by
      simp [update_course_file, h, List.append_assoc]
    constructor
    · rw [houter]
      simp only [List.length_append]
      have h1 : (str "\n").length = 1 := rfl
      omega
    · rw [houter, hpre]
      have h2occ := two_occurrences' (sectionsText r) (pre ++ str "\n")
        (str "\n" ++ footerText r ts ++ str "\n")
        (str "\n" ++ footerText r ts')
        (sectionsText_ne_nil r)
      simp only [List.append_assoc] at h2occ ⊢
      exact h2occ

/-- C6 witness: for a record that is exactly a `Course URL:` line, the second
update with a fresh timestamp replaces the first block — the result equals a
single direct update with that timestamp. -/
theorem update_course_file_second_run_spec_witness :
    update_course_file
        (update_course_file (str "Course URL: http://x\n")
          { code := str "xx", url := str "u", textbooks := [], recitations := [],
            homeworks := [], lectures := [], other_links := [], errors := [] }
          (str "T1"))
        { code := str "xx", url := str "u", textbooks := [], recitations := [],
          homeworks := [], lectures := [], other_links := [], errors := [] }
        (str "T2") =
      update_course_file (str "Course URL: http://x\n")
        { code := str "xx", url := str "u", textbooks := [], recitations := [],
          homeworks := [], lectures := [], other_links := [], errors := [] }
        (str "T2") :=
  update_course_file_second_run_spec.1 (str "Course URL: http://x\n")
    { code := str "xx", url := str "u", textbooks := [], recitations := [],
      homeworks := [], lectures := [], other_links := [], errors := [] }
    (str "T1") (str "T2") (by decide)

/-- C6 (counterexample): the claim says that for *every* record text and
CrawlResult, running the Updater twice appends two summary blocks, so the
result is strictly longer and contains a second copy of the block.  For the
record `Course URL: http://x\n` — the normal shape of a course record — and
identical timestamps, the double update equals the single update exactly
(line 475 discards everything after the `Course URL:` line, replacing the
first block), and the result contains exactly one copy of the sections
block: the transform is idempotent there, not append-only. -/
theorem update_course_file_idempotent_counterexample :
    update_course_file
        (update_course_file (str "Course URL: http://x\n")
          { code := str "xx", url := str "u", textbooks := [], recitations := [],
            homeworks := [], lectures := [], other_links := [], errors := [] }
          (str "T1"))
        { code := str "xx", url := str "u", textbooks := [], recitations := [],
          homeworks := [], lectures := [], other_links := [], errors := [] }
        (str "T1") =
      update_course_file (str "Course URL: http://x\n")
        { code := str "xx", url := str "u", textbooks := [], recitations := [],
          homeworks := [], lectures := [], other_links := [], errors := [] }
        (str "T1") ∧
    countOccur
        (sectionsText
          { code := str "xx", url := str "u", textbooks := [], recitations := [],
            homeworks := [], lectures := [], other_links := [], errors := [] })
        (update_course_file
          (update_course_file (str "Course URL: http://x\n")
            { code := str "xx", url := str "u", textbooks := [], recitations := [],
              homeworks := [], lectures := [], other_links := [], errors := [] }
            (str "T1"))
          { code := str "xx", url := str "u", textbooks := [], recitations := [],
            homeworks := [], lectures := [], other_links := [], errors := [] }
          (str "T1")) = 1 := by decide
